import Mathlib

/-!
Shallow embedding of the LC-3 virtual machine in src/vm.c.

Machine words are 16-bit unsigned values, modelled as `Nat` with explicit
reduction modulo 65536 wherever a C `uint16_t` assignment truncates.  The
register file and the memory store are modelled as functions `Nat → Nat`;
a C `uint16_t` cell is reflected by `< 65536` hypotheses where a theorem
needs them.  The source file is an unfinished skeleton: definitions that
are absent from it (the loader, `mem_read`, the `ldi` body, the behavior
of the bad-opcode branch) are modelled from the specification and say so
in their doc comments; everything else is translated from the source.
-/

namespace VM

/-- src/vm.c line 19: the memory array is declared with `UINT16_MAX`
(that is, 65535) cells: `unint16_t memory[UINT16_MAX]`. -/
def memoryLength : Nat := 65535

/-- Register indices, from the `enum` at src/vm.c lines 22-35. -/
def R_R0 : Nat := 0

def R_R1 : Nat := 1

def R_R7 : Nat := 7

/-- Program counter register index. -/
def R_PC : Nat := 8

/-- Condition-flags register index. -/
def R_COND : Nat := 9

/-- Number of registers in the register file (`uint16_t reg[R_COUNT]`). -/
def R_COUNT : Nat := 10

/-- Opcodes, from the `enum` at src/vm.c lines 41-59. -/
def OP_BR : Nat := 0

def OP_ADD : Nat := 1

def OP_LD : Nat := 2

def OP_ST : Nat := 3

def OP_JSR : Nat := 4

def OP_AND : Nat := 5

def OP_LDR : Nat := 6

def OP_STR : Nat := 7

def OP_RTI : Nat := 8

def OP_NOT : Nat := 9

def OP_LDI : Nat := 10

def OP_STI : Nat := 11

def OP_JMP : Nat := 12

def OP_RES : Nat := 13

def OP_LEA : Nat := 14

def OP_TRAP : Nat := 15

/-- Condition flags, from the `enum` at src/vm.c lines 62-67: FL_POS = 1,
FL_ZRO = 2, FL_NEG = 4. -/
def FL_POS : Nat := 1

def FL_ZRO : Nat := 2

def FL_NEG : Nat := 4

/-- A single-cell store update: models a C assignment `a[i] = v` on an
array viewed as a function. -/
def setReg (reg : Nat → Nat) (i v : Nat) : Nat → Nat :=
  fun j => if j = i then v else reg j

/-- src/vm.c lines 171-177.  `sign_extend(x, bit_count)` tests bit
`bit_count - 1` of `x`; if set it ors in `0xFFFF << bit_count`, truncated
to 16 bits by the `uint16_t` assignment, else returns `x` unchanged. -/
def sign_extend (x : Nat) (bit_count : Nat) : Nat :=
  if (x >>> (bit_count - 1)) &&& 1 = 1 then
    (x ||| (0xFFFF <<< bit_count)) % 65536
  else x

/-- src/vm.c lines 149-163.  `update_flags(r)` writes exactly one of the
three flag values into `reg[R_COND]`, chosen from `reg[r]`: zero gives
FL_ZRO, a set bit 15 (tested as `reg[r] >> 15` nonzero) gives FL_NEG,
anything else gives FL_POS. -/
def update_flags (reg : Nat → Nat) (r : Nat) : Nat → Nat :=
  if reg r = 0 then setReg reg R_COND FL_ZRO
  else if reg r >>> 15 ≠ 0 then setReg reg R_COND FL_NEG
  else setReg reg R_COND FL_POS

/-- src/vm.c lines 195-216.  The ADD handler: dr from bits 11:9, sr1 from
bits 8:6, mode from bit 5; immediate mode adds `sign_extend(instr & 0x1F, 5)`,
register mode adds `reg[instr & 0x7]`; the `uint16_t` assignment to
`reg[dr]` truncates modulo 65536; `update_flags(dr)` runs last. -/
def add (reg : Nat → Nat) (instr : Nat) : Nat → Nat :=
  let dr := (instr >>> 9) &&& 0x7
  let sr1 := (instr >>> 6) &&& 0x7
  let mode := (instr >>> 5) &&& 0x1
  let reg1 :=
    if mode ≠ 0 then
      let imm5 := sign_extend (instr &&& 0x1F) 5
      setReg reg dr ((reg sr1 + imm5) % 65536)
    else
      let sr2 := instr &&& 0x7
      setReg reg dr ((reg sr1 + reg sr2) % 65536)
  update_flags reg1 dr

/-- Modelled from the spec: `mem_read` is called at src/vm.c line 88 but
its definition is missing from the source skeleton.  Spec section 4.1: a
read masks the address to 16 bits and returns the cell's value.  (The
keyboard-device polling side effect of reading the status address is
omitted: no claim concerns the keyboard registers.) -/
def mem_read (memory : Nat → Nat) (address : Nat) : Nat :=
  memory (address % 65536)

/-- Modelled from the spec: the body of `ldi` is cut off mid-expression at
src/vm.c line 233.  Spec section 4.5: dr is bits 11:9, the address is
PC plus `sign_extend` of bits 8:0 over 9 bits (16-bit addition), the
destination receives `memory.read(memory.read(address))`, and
`update_flags(dr)` runs last. -/
def ldi (memory : Nat → Nat) (reg : Nat → Nat) (instr : Nat) : Nat → Nat :=
  let dr := (instr >>> 9) &&& 0x7
  let offset := sign_extend (instr &&& 0x1FF) 9
  let address := (reg R_PC + offset) % 65536
  let reg1 := setReg reg dr (mem_read memory (mem_read memory address))
  update_flags reg1 dr

/-- src/vm.c line 80: `PC_START = 0x3000`, the fixed address the VM
fetches its first instruction from. -/
def PC_START : Nat := 0x3000

/-- The register file at run start: C zero-initializes the global `reg`
array, and src/vm.c line 82 then sets `reg[R_PC] = PC_START`. -/
def initialReg : Nat → Nat :=
  setReg (fun _ => 0) R_PC PC_START

/-- src/vm.c line 84: `int running = 1` before the loop's first
iteration. -/
def initialRunning : Bool := true

/-- Modelled from the spec: the image loader is entirely absent from the
source skeleton.  Spec section 6: the first word of an image file is the
load origin address, and the remaining words are stored contiguously into
memory starting at that origin. -/
def loadOrigin (image : List Nat) : Nat := image.headD 0

/-- Modelled from the spec: storing an image's data words contiguously
from its origin (spec section 6), on top of an existing memory. -/
def loadImage (memory : Nat → Nat) (image : List Nat) : Nat → Nat :=
  match image with
  | [] => memory
  | origin :: data => loadWords memory origin data
where
  /-- Store `data` at consecutive addresses starting at `a`. -/
  loadWords (memory : Nat → Nat) (a : Nat) : List Nat → Nat → Nat
    | [] => memory
    | w :: ws => loadWords (setReg memory (a % 65536) w) (a + 1) ws

/-- The machine state carried by the execution loop: the memory store, the
register file (general registers, PC and condition flags), the `running`
flag of src/vm.c line 84, and the bad-opcode diagnostic of spec section
4.4 (the offending opcode and the address it was fetched from). -/
structure VMState where
  memory : Nat → Nat
  reg : Nat → Nat
  running : Bool
  badOpcode : Option (Nat × Nat)

/-- The address the next instruction is fetched from: the current PC
(src/vm.c line 88 reads `reg[R_PC]`). -/
def fetchAddr (s : VMState) : Nat := s.reg R_PC

/-- The fetched instruction word: `mem_read(reg[R_PC])`, src/vm.c
line 88. -/
def fetchedInstr (s : VMState) : Nat := mem_read s.memory (fetchAddr s)

/-- The state after the fetch's post-increment `reg[R_PC]++` (src/vm.c
line 88): PC advances by one, truncated to 16 bits by the `uint16_t`
register cell. -/
def afterFetch (s : VMState) : VMState :=
  { s with reg := setReg s.reg R_PC ((s.reg R_PC + 1) % 65536) }

/-- src/vm.c line 91: the opcode is the instruction word shifted right by
12, i.e. bits 15:12 of a 16-bit word. -/
def decode (word : Nat) : Nat := word >>> 12

/-- A handler assignment for the thirteen defined opcodes whose switch
bodies are non-code placeholders in the source (src/vm.c lines 98-136):
each is some state transition taking the opcode, the post-fetch state and
the instruction word.  The dispatcher is parametric in them, so theorems
about the loop hold for any implementation of those handlers. -/
def Handlers : Type := Nat → VMState → Nat → VMState

/-- The switch of src/vm.c lines 93-142.  The OP_ADD case calls the real
`add` handler; the cases for the other thirteen defined opcodes are
placeholders in the source and are routed to the `handlers` parameter;
OP_RES, OP_RTI and the default case share the bad-opcode branch.
Modelled from the spec for that branch: spec section 4.4 says a bad
opcode halts execution with a diagnostic identifying the opcode and the
address it was fetched from (the source's own branch body is a
placeholder). -/
def dispatch (handlers : Handlers) (op fA : Nat) (s : VMState) (instr : Nat) :
    VMState :=
  if op = OP_ADD then { s with reg := add s.reg instr }
  else if op = OP_AND ∨ op = OP_NOT ∨ op = OP_BR ∨ op = OP_JMP ∨ op = OP_JSR
      ∨ op = OP_LD ∨ op = OP_LDI ∨ op = OP_LDR ∨ op = OP_LEA ∨ op = OP_ST
      ∨ op = OP_STI ∨ op = OP_STR ∨ op = OP_TRAP then
    handlers op s instr
  else
    { s with running := false, badOpcode := some (op, fA) }

/-- One iteration of the `while (running)` loop, src/vm.c lines 85-143:
when running, fetch the word at PC, post-increment PC modulo 65536,
decode the opcode as bits 15:12 and dispatch on it; when not running, the
loop body never executes. -/
def step (handlers : Handlers) (s : VMState) : VMState :=
  if s.running then
    dispatch handlers (decode (fetchedInstr s)) (fetchAddr s) (afterFetch s)
      (fetchedInstr s)
  else s

/-! ### Helper lemmas -/

theorem setReg_self (reg : Nat → Nat) (i v : Nat) : setReg reg i v i = v := by
  simp [setReg]

theorem setReg_other (reg : Nat → Nat) (i v j : Nat) (h : j ≠ i) :
    setReg reg i v j = reg j := by
  simp [setReg, h]

theorem update_flags_apply (reg : Nat → Nat) (r i : Nat) :
    update_flags reg r i =
      if i = R_COND then
        (if reg r = 0 then FL_ZRO else if reg r >>> 15 ≠ 0 then FL_NEG
         else FL_POS)
      else reg i := by
  unfold update_flags setReg
  by_cases h0 : reg r = 0 <;> by_cases h15 : reg r >>> 15 ≠ 0 <;>
    simp [h0, h15]

theorem shift_and_one_eq_one_iff (x k : Nat) :
    ((x >>> k) &&& 1 = 1) ↔ x.testBit k = true := by
  rw [Nat.and_one_is_mod, Nat.testBit_to_div_mod, Nat.shiftRight_eq_div_pow]
  simp

theorem shiftRight15_ne_zero_iff (v : Nat) (h : v < 65536) :
    (v >>> 15 ≠ 0) ↔ v.testBit 15 = true := by
  rw [Nat.testBit_to_div_mod, Nat.shiftRight_eq_div_pow]
  have hd : v / 2 ^ 15 < 2 := by
    apply Nat.div_lt_of_lt_mul
    omega
  simp only [decide_eq_true_eq]
  omega

theorem sign_extend_testBit (x n i : Nat) (h2 : n ≤ 16) (hx : x < 2 ^ n)
    (hi : i < 16) :
    (sign_extend x n).testBit i =
      if n ≤ i then x.testBit (n - 1) else x.testBit i := by
  have h65536 : (65536 : Nat) = 2 ^ 16 := by norm_num
  have hFFFF : (0xFFFF : Nat) = 2 ^ 16 - 1 := by norm_num
  unfold sign_extend
  by_cases hb : (x >>> (n - 1)) &&& 1 = 1
  · rw [if_pos hb]
    have hbt : x.testBit (n - 1) = true := (shift_and_one_eq_one_iff x (n - 1)).mp hb
    rw [h65536, hFFFF, Nat.testBit_mod_two_pow, Nat.testBit_or,
      Nat.testBit_shiftLeft, Nat.testBit_two_pow_sub_one]
    by_cases hni : n ≤ i
    · have hxi : x.testBit i = false :=
        Nat.testBit_lt_two_pow
          (lt_of_lt_of_le hx (Nat.pow_le_pow_right (by norm_num) hni))
      have hin16 : i - n < 16 := by omega
      simp [hi, hni, hxi, hbt, hin16]
    · have hni2 : ¬ (i ≥ n) := hni
      simp [hi, hni, hni2]
  · rw [if_neg hb]
    have hbt : x.testBit (n - 1) = false := by
      rcases hcase : x.testBit (n - 1) with _ | _
      · rfl
      · exact absurd ((shift_and_one_eq_one_iff x (n - 1)).mpr hcase) hb
    by_cases hni : n ≤ i
    · have hxi : x.testBit i = false :=
        Nat.testBit_lt_two_pow
          (lt_of_lt_of_le hx (Nat.pow_le_pow_right (by norm_num) hni))
      simp [hni, hxi, hbt]
    · simp [hni]

theorem sign_extend_lt (x n : Nat) (h2 : n ≤ 16) (hx : x < 2 ^ n) :
    sign_extend x n < 65536 := by
  unfold sign_extend
  by_cases hb : (x >>> (n - 1)) &&& 1 = 1
  · rw [if_pos hb]
    exact Nat.mod_lt _ (by norm_num)
  · rw [if_neg hb]
    calc x < 2 ^ n := hx
      _ ≤ 2 ^ 16 := Nat.pow_le_pow_right (by norm_num) h2
      _ = 65536 := by norm_num

/-! ### Claim theorems -/

/-- Claim C2: for every value that fits in bit_count bits with
1 ≤ bit_count ≤ 16, sign_extend returns the value with every bit above
position bit_count-1 equal to bit bit_count-1 (1 when the sign bit is
set, 0 otherwise) and the low bits unchanged, the result fits in 16 bits,
and the two spec examples hold. -/
theorem sign_extend_correct :
    (∀ n x i, 1 ≤ n → n ≤ 16 → x < 2 ^ n → i < 16 →
      (sign_extend x n).testBit i =
        if n ≤ i then x.testBit (n - 1) else x.testBit i)
    ∧ (∀ n x, 1 ≤ n → n ≤ 16 → x < 2 ^ n → sign_extend x n < 65536)
    ∧ sign_extend 0b10000 5 = 0xFFF0 ∧ sign_extend 0b01111 5 = 0x000F :=
  ⟨fun n x i _ h2 hx hi => sign_extend_testBit x n i h2 hx hi,
   fun n x _ h2 hx => sign_extend_lt x n h2 hx,
   by decide, by decide⟩

/-- Witness for C2: the general part evaluated at n = 5, x = 0b10000,
i = 7, a bit above the sign position of a negative field. -/
theorem sign_extend_correct_witness :
    (sign_extend 0b10000 5).testBit 7 =
      (if 5 ≤ 7 then (0b10000 : Nat).testBit 4 else (0b10000 : Nat).testBit 7) :=
  sign_extend_correct.1 5 0b10000 7 (by decide) (by decide) (by decide)
    (by decide)

/-- Claim C9: sign extension preserves the low bit_count bits (the result
modulo 2 ^ bit_count is the input), and is the identity when the sign bit
of the field is clear. -/
theorem sign_extend_low_bits (n x : Nat) (_h1 : 1 ≤ n) (h2 : n ≤ 16)
    (hx : x < 2 ^ n) :
    sign_extend x n % 2 ^ n = x
    ∧ (x.testBit (n - 1) = false → sign_extend x n = x) := by
  constructor
  · unfold sign_extend
    by_cases hb : (x >>> (n - 1)) &&& 1 = 1
    · rw [if_pos hb]
      have hdvd : (2 : Nat) ^ n ∣ 65536 := by
        have h65536 : (65536 : Nat) = 2 ^ 16 := by norm_num
        rw [h65536]
        exact pow_dvd_pow 2 h2
      rw [Nat.mod_mod_of_dvd _ hdvd]
      have hxmod : x % 2 ^ n = x := Nat.mod_eq_of_lt hx
      conv_rhs => rw [← hxmod]
      apply Nat.eq_of_testBit_eq
      intro i
      rw [Nat.testBit_mod_two_pow, Nat.testBit_mod_two_pow, Nat.testBit_or,
        Nat.testBit_shiftLeft]
      by_cases hin : i < n
      · have hge : ¬ (i ≥ n) := by omega
        simp [hin, hge]
      · simp [hin]
    · rw [if_neg hb]
      exact Nat.mod_eq_of_lt hx
  · intro hbt
    have hb : ¬ ((x >>> (n - 1)) &&& 1 = 1) := by
      rw [shift_and_one_eq_one_iff, hbt]
      simp
    unfold sign_extend
    rw [if_neg hb]

/-- Witness for C9: n = 5, x = 0b01111 (sign bit clear, so the identity
half applies as well). -/
theorem sign_extend_low_bits_witness :
    sign_extend 0b01111 5 % 2 ^ 5 = 0b01111
    ∧ ((0b01111 : Nat).testBit 4 = false → sign_extend 0b01111 5 = 0b01111) :=
  sign_extend_low_bits 5 0b01111 (by decide) (by decide) (by decide)

/-- Claim C4 (code bug): the claim (with the spec and the comment at
src/vm.c line 18, which describes a full 16-bit address space) requires
65536 memory cells, but the declaration `unint16_t memory[UINT16_MAX]` at
src/vm.c line 19 provides only 65535, so the masked address 0xFFFF (which
masking leaves unchanged) is out of the declared array's range. -/
theorem memory_store_off_by_one :
    memoryLength = 65535 ∧ 0xFFFF % 65536 = 0xFFFF
    ∧ ¬ (0xFFFF < memoryLength) := by
  refine ⟨rfl, by norm_num, ?_⟩
  unfold memoryLength
  norm_num

/-- Claim C3: after update_flags(r) the condition-flags register holds
exactly one of FL_POS, FL_ZRO, FL_NEG — FL_ZRO when reg[r] is zero,
FL_NEG when bit 15 of reg[r] is set, FL_POS otherwise — and of the three
flag bits of the stored value exactly one is set. -/
theorem update_flags_correct (reg : Nat → Nat) (r : Nat)
    (h : reg r < 65536) :
    (update_flags reg r R_COND = FL_ZRO ∨ update_flags reg r R_COND = FL_NEG
      ∨ update_flags reg r R_COND = FL_POS)
    ∧ (update_flags reg r R_COND = FL_ZRO ↔ reg r = 0)
    ∧ (update_flags reg r R_COND = FL_NEG ↔
        (reg r ≠ 0 ∧ (reg r).testBit 15 = true))
    ∧ (update_flags reg r R_COND = FL_POS ↔
        (reg r ≠ 0 ∧ (reg r).testBit 15 = false))
    ∧ ((update_flags reg r R_COND).testBit 0).toNat
        + ((update_flags reg r R_COND).testBit 1).toNat
        + ((update_flags reg r R_COND).testBit 2).toNat = 1 := by
  have key : update_flags reg r R_COND =
      (if reg r = 0 then FL_ZRO else if reg r >>> 15 ≠ 0 then FL_NEG
       else FL_POS) := by
    rw [update_flags_apply]
    simp
  have hbit := shiftRight15_ne_zero_iff (reg r) h
  rw [key]
  by_cases h0 : reg r = 0
  · rw [if_pos h0]
    refine ⟨Or.inl rfl, by simp [h0], ?_, ?_, by decide⟩
    · constructor
      · intro hz
        exact absurd hz (by decide)
      · intro hz
        exact absurd h0 hz.1
    · constructor
      · intro hz
        exact absurd hz (by decide)
      · intro hz
        exact absurd h0 hz.1
  · rw [if_neg h0]
    by_cases h15 : reg r >>> 15 ≠ 0
    · rw [if_pos h15]
      have ht : (reg r).testBit 15 = true := hbit.mp h15
      refine ⟨Or.inr (Or.inl rfl), ?_, ?_, ?_, by decide⟩
      · constructor
        · intro hz
          exact absurd hz (by decide)
        · intro hz
          exact absurd hz h0
      · simp [h0, ht]
      · constructor
        · intro hz
          exact absurd hz (by decide)
        · intro hz
          rw [ht] at hz
          exact absurd hz.2 (by decide)
    · rw [if_neg h15]
      have ht : (reg r).testBit 15 = false := by
        rcases hcase : (reg r).testBit 15 with _ | _
        · rfl
        · exact absurd (hbit.mpr hcase) h15
      refine ⟨Or.inr (Or.inr rfl), ?_, ?_, ?_, by decide⟩
      · constructor
        · intro hz
          exact absurd hz (by decide)
        · intro hz
          exact absurd hz h0
      · constructor
        · intro hz
          exact absurd hz (by decide)
        · intro hz
          rw [ht] at hz
          exact absurd hz.2 (by decide)
      · simp [h0, ht]

/-- Witness for C3: update_flags on a register file whose register 3
holds 5 (a positive 16-bit value). -/
theorem update_flags_correct_witness :
    ((update_flags (fun _ => 5) 3 R_COND = FL_ZRO
        ∨ update_flags (fun _ => 5) 3 R_COND = FL_NEG
        ∨ update_flags (fun _ => 5) 3 R_COND = FL_POS)
      ∧ (update_flags (fun _ => 5) 3 R_COND = FL_ZRO ↔ (5 : Nat) = 0)
      ∧ (update_flags (fun _ => 5) 3 R_COND = FL_NEG ↔
          ((5 : Nat) ≠ 0 ∧ (5 : Nat).testBit 15 = true))
      ∧ (update_flags (fun _ => 5) 3 R_COND = FL_POS ↔
          ((5 : Nat) ≠ 0 ∧ (5 : Nat).testBit 15 = false))
      ∧ ((update_flags (fun _ => 5) 3 R_COND).testBit 0).toNat
          + ((update_flags (fun _ => 5) 3 R_COND).testBit 1).toNat
          + ((update_flags (fun _ => 5) 3 R_COND).testBit 2).toNat = 1) :=
  update_flags_correct (fun _ => 5) 3 (by decide)

theorem add_eq (reg : Nat → Nat) (instr : Nat) :
    add reg instr =
      update_flags
        (setReg reg ((instr >>> 9) &&& 0x7)
          ((reg ((instr >>> 6) &&& 0x7) +
            (if (instr >>> 5) &&& 0x1 = 1 then sign_extend (instr &&& 0x1F) 5
             else reg (instr &&& 0x7))) % 65536))
        ((instr >>> 9) &&& 0x7) := by
  unfold add
  have hm : (instr >>> 5) &&& 0x1 ≤ 1 := Nat.and_le_right
  by_cases h : (instr >>> 5) &&& 0x1 = 1
  · simp [h]
  · have h0 : (instr >>> 5) &&& 0x1 = 0 := by omega
    simp [h, h0]

theorem dr_ne_R_COND (instr : Nat) : (instr >>> 9) &&& 0x7 ≠ R_COND := by
  have hdr : (instr >>> 9) &&& 0x7 ≤ 7 := Nat.and_le_right
  unfold R_COND
  omega

/-- Claim C1: the ADD handler adds reg[bits 8:6] and the second operand —
sign_extend of bits 4:0 when bit 5 is set, reg[bits 2:0] otherwise —
into the register named by bits 11:9, truncated modulo 2 ^ 16; the
condition flags are computed from the destination's final value; all
other registers are untouched; and the spec's concrete example (reg[1]=3,
dr=0, sr1=1, mode=1, imm5=0b11110) yields reg[0]=1 with flag FL_POS. -/
theorem add_correct (reg : Nat → Nat) (instr : Nat) :
    add reg instr ((instr >>> 9) &&& 0x7) =
      (reg ((instr >>> 6) &&& 0x7) +
        (if (instr >>> 5) &&& 0x1 = 1 then sign_extend (instr &&& 0x1F) 5
         else reg (instr &&& 0x7))) % 65536
    ∧ add reg instr R_COND =
        (if add reg instr ((instr >>> 9) &&& 0x7) = 0 then FL_ZRO
         else if add reg instr ((instr >>> 9) &&& 0x7) >>> 15 ≠ 0 then FL_NEG
         else FL_POS)
    ∧ (∀ i, i ≠ (instr >>> 9) &&& 0x7 → i ≠ R_COND → add reg instr i = reg i)
    ∧ add (setReg (fun _ => 0) 1 3) 0x107E 0 = 1
    ∧ add (setReg (fun _ => 0) 1 3) 0x107E R_COND = FL_POS := by
  have hdrc := dr_ne_R_COND instr
  have h1 : add reg instr ((instr >>> 9) &&& 0x7) =
      (reg ((instr >>> 6) &&& 0x7) +
        (if (instr >>> 5) &&& 0x1 = 1 then sign_extend (instr &&& 0x1F) 5
         else reg (instr &&& 0x7))) % 65536 := by
    rw [add_eq, update_flags_apply, if_neg hdrc, setReg_self]
  refine ⟨h1, ?_, ?_, by decide, by decide⟩
  · rw [h1, add_eq, update_flags_apply, if_pos rfl, setReg_self]
  · intro i hidr hic
    rw [add_eq, update_flags_apply, if_neg hic, setReg_other _ _ _ _ hidr]

/-- Witness for C1: the frame conjunct applied at a concrete register
file and instruction (register 5 is neither the destination nor the
condition-flags register, so ADD leaves it alone). -/
theorem add_correct_witness :
    add (fun _ => 9) 0x107E 5 = (fun _ => (9 : Nat)) 5 :=
  (add_correct (fun _ => 9) 0x107E).2.2.1 5 (by decide) (by decide)

/-- Claim C10: every register index the ADD handler extracts (dr, sr1,
sr2) is masked with 0x7 and hence below 8, within the 10-entry register
file; the index it passes to update_flags is dr, also below 8; and for
every instruction word the handler writes no register other than dr and
R_COND. -/
theorem add_register_access_bounds (reg : Nat → Nat) (instr : Nat) :
    (instr >>> 9) &&& 0x7 < 8 ∧ (instr >>> 6) &&& 0x7 < 8
    ∧ instr &&& 0x7 < 8 ∧ 8 ≤ R_COUNT ∧ R_COND < R_COUNT
    ∧ (∀ i, 8 ≤ i → i ≠ R_COND → add reg instr i = reg i) := by
  have hdr : (instr >>> 9) &&& 0x7 ≤ 7 := Nat.and_le_right
  have hsr1 : (instr >>> 6) &&& 0x7 ≤ 7 := Nat.and_le_right
  have hsr2 : instr &&& 0x7 ≤ 7 := Nat.and_le_right
  refine ⟨by omega, by omega, by omega, by decide, by decide, ?_⟩
  intro i hi hic
  have hidr : i ≠ (instr >>> 9) &&& 0x7 := by omega
  rw [add_eq, update_flags_apply, if_neg hic, setReg_other _ _ _ _ hidr]

/-- Witness for C10: the frame conjunct at register index 8 (the PC),
which ADD never writes. -/
theorem add_register_access_bounds_witness :
    add (fun _ => 0) 0xFFFF 8 = (fun _ => (0 : Nat)) 8 :=
  (add_register_access_bounds (fun _ => 0) 0xFFFF).2.2.2.2.2 8 (by decide)
    (by decide)

theorem ldi_eq (memory reg : Nat → Nat) (instr : Nat) :
    ldi memory reg instr =
      update_flags
        (setReg reg ((instr >>> 9) &&& 0x7)
          (mem_read memory (mem_read memory
            ((reg R_PC + sign_extend (instr &&& 0x1FF) 9) % 65536))))
        ((instr >>> 9) &&& 0x7) := rfl

/-- Claim C8: the LDI handler loads, into the register named by bits
11:9, the word found by double indirection — it reads memory at
PC + sign_extend(bits 8:0, 9) and reads memory again at the word found
there; the condition flags are computed from the destination's final
value; other registers are untouched; and in the spec's concrete example
(memory[PC+offset] = 0x3100, memory[0x3100] = 0x1234) the destination
receives 0x1234. -/
theorem ldi_correct (memory reg : Nat → Nat) (instr : Nat) :
    ldi memory reg instr ((instr >>> 9) &&& 0x7) =
      mem_read memory (mem_read memory
        ((reg R_PC + sign_extend (instr &&& 0x1FF) 9) % 65536))
    ∧ ldi memory reg instr R_COND =
        (if ldi memory reg instr ((instr >>> 9) &&& 0x7) = 0 then FL_ZRO
         else if ldi memory reg instr ((instr >>> 9) &&& 0x7) >>> 15 ≠ 0 then
           FL_NEG
         else FL_POS)
    ∧ (∀ i, i ≠ (instr >>> 9) &&& 0x7 → i ≠ R_COND →
        ldi memory reg instr i = reg i)
    ∧ ldi
        (fun a => if a = 0x3010 then 0x3100 else if a = 0x3100 then 0x1234
          else 0)
        initialReg 0xA410 2 = 0x1234 := by
  have hdrc := dr_ne_R_COND instr
  have h1 : ldi memory reg instr ((instr >>> 9) &&& 0x7) =
      mem_read memory (mem_read memory
        ((reg R_PC + sign_extend (instr &&& 0x1FF) 9) % 65536)) := by
    rw [ldi_eq, update_flags_apply, if_neg hdrc, setReg_self]
  refine ⟨h1, ?_, ?_, by decide⟩
  · rw [h1, ldi_eq, update_flags_apply, if_pos rfl, setReg_self]
  · intro i hidr hic
    rw [ldi_eq, update_flags_apply, if_neg hic, setReg_other _ _ _ _ hidr]

/-- Witness for C8: the frame conjunct at a concrete memory, register
file and instruction (register 5 is neither the destination nor the
condition-flags register). -/
theorem ldi_correct_witness :
    ldi (fun _ => 0) (fun _ => 7) 0xA410 5 = (fun _ => (7 : Nat)) 5 :=
  (ldi_correct (fun _ => 0) (fun _ => 7) 0xA410).2.2.1 5 (by decide)
    (by decide)

/-- Claim C5: when the fetched word's opcode is OP_RES, OP_RTI, or any
value outside the fourteen dispatched opcodes, the step halts the loop
(running becomes false), records a diagnostic holding the opcode and the
address it was fetched from, and a further step changes nothing — no
further instruction executes. -/
theorem bad_opcode_halts (handlers : Handlers) (s : VMState)
    (hrun : s.running = true)
    (hop : decode (fetchedInstr s) ∉
      [OP_ADD, OP_AND, OP_NOT, OP_BR, OP_JMP, OP_JSR, OP_LD, OP_LDI,
       OP_LDR, OP_LEA, OP_ST, OP_STI, OP_STR, OP_TRAP]) :
    (step handlers s).running = false
    ∧ (step handlers s).badOpcode =
        some (decode (fetchedInstr s), fetchAddr s)
    ∧ step handlers (step handlers s) = step handlers s := by
  simp only [List.mem_cons, List.not_mem_nil, or_false, not_or] at hop
  obtain ⟨hA, hAnd, hNot, hBr, hJmp, hJsr, hLd, hLdi, hLdr, hLea, hSt,
    hSti, hStr, hTrap⟩ := hop
  have hstep : step handlers s =
      { afterFetch s with running := false, badOpcode := some (decode (fetchedInstr s), fetchAddr s) } := by
    unfold step
    rw [hrun]
    simp only [if_pos]
    unfold dispatch
    rw [if_neg hA, if_neg]
    intro hor
    rcases hor with h | h | h | h | h | h | h | h | h | h | h | h | h
    · exact hAnd h
    · exact hNot h
    · exact hBr h
    · exact hJmp h
    · exact hJsr h
    · exact hLd h
    · exact hLdi h
    · exact hLdr h
    · exact hLea h
    · exact hSt h
    · exact hSti h
    · exact hStr h
    · exact hTrap h
  rw [hstep]
  refine ⟨rfl, rfl, ?_⟩
  unfold step
  simp

/-- Witness for C5: a running state whose memory holds 0xD000 (opcode
OP_RES = 13) everywhere; the step halts and records the diagnostic. -/
theorem bad_opcode_halts_witness :
    (step (fun _ t _ => t) ⟨fun _ => 0xD000, initialReg, true, none⟩).running
        = false
    ∧ (step (fun _ t _ => t)
        ⟨fun _ => 0xD000, initialReg, true, none⟩).badOpcode =
        some (decode (fetchedInstr
          ⟨fun _ => 0xD000, initialReg, true, none⟩),
          fetchAddr ⟨fun _ => 0xD000, initialReg, true, none⟩)
    ∧ step (fun _ t _ => t)
        (step (fun _ t _ => t) ⟨fun _ => 0xD000, initialReg, true, none⟩) =
        step (fun _ t _ => t) ⟨fun _ => 0xD000, initialReg, true, none⟩ :=
  bad_opcode_halts (fun _ t _ => t) ⟨fun _ => 0xD000, initialReg, true, none⟩
    rfl (by decide)

/-- Claim C7: while running, a step reads the word at the current PC,
post-increments the PC by one modulo 65536 (so a fetch at 0xFFFF leaves
PC at 0), touches no other register during the fetch, decodes the opcode
as bits 15:12 of the word (a value below 16 for any 16-bit word), and
dispatches on it; a state that is not running does not step. -/
theorem step_structure (handlers : Handlers) (s : VMState)
    (hrun : s.running = true) :
    fetchedInstr s = mem_read s.memory (s.reg R_PC)
    ∧ (afterFetch s).reg R_PC = (s.reg R_PC + 1) % 65536
    ∧ (s.reg R_PC = 0xFFFF → (afterFetch s).reg R_PC = 0)
    ∧ (∀ i, i ≠ R_PC → (afterFetch s).reg i = s.reg i)
    ∧ (∀ w, w < 65536 → decode w = w >>> 12 ∧ decode w < 16)
    ∧ step handlers s =
        dispatch handlers (decode (fetchedInstr s)) (fetchAddr s)
          (afterFetch s) (fetchedInstr s)
    ∧ (∀ t : VMState, t.running = false → step handlers t = t) := by
  refine ⟨rfl, ?_, ?_, ?_, ?_, ?_, ?_⟩
  · show setReg s.reg R_PC ((s.reg R_PC + 1) % 65536) R_PC = _
    rw [setReg_self]
  · intro h
    show setReg s.reg R_PC ((s.reg R_PC + 1) % 65536) R_PC = 0
    rw [setReg_self, h]
  · intro i hi
    show setReg s.reg R_PC ((s.reg R_PC + 1) % 65536) i = s.reg i
    rw [setReg_other _ _ _ _ hi]
  · intro w hw
    refine ⟨rfl, ?_⟩
    unfold decode
    rw [Nat.shiftRight_eq_div_pow]
    have h12 : (2 : Nat) ^ 12 = 4096 := by norm_num
    rw [h12]
    omega
  · unfold step
    rw [hrun]
    simp
  · intro t ht
    unfold step
    rw [ht]
    simp

/-- Witness for C7: the PC-wraparound part at a concrete running state
whose PC is 0xFFFF. -/
theorem step_structure_witness :
    (afterFetch ⟨fun _ => 0, setReg (fun _ => 0) R_PC 0xFFFF, true,
      none⟩).reg R_PC = 0 :=
  (step_structure (fun _ t _ => t)
    ⟨fun _ => 0, setReg (fun _ => 0) R_PC 0xFFFF, true, none⟩ rfl).2.2.1
    (by decide)

/-- Claim C6 counterexample: for an image whose origin word is 0x4000 the
program counter at run start is still the constant 0x3000 (src/vm.c
lines 80-82), not the load origin, so the claim as stated is false. -/
theorem initial_pc_not_load_origin :
    loadOrigin [0x4000, 7, 8] = 0x4000 ∧ initialRunning = true
    ∧ initialReg R_PC = 0x3000
    ∧ initialReg R_PC ≠ loadOrigin [0x4000, 7, 8] := by
  refine ⟨rfl, rfl, by decide, by decide⟩

/-- Claim C6 (amended): at run start the loop is RUNNING and the program
counter equals the fixed constant PC_START = 0x3000 regardless of the
image's origin; in particular, when the image's origin word is 0x3000
the PC equals the load origin, and loading an image with origin 0x3000
and two data words places them at 0x3000 and 0x3001. -/
theorem initial_pc_start (image : List Nat) (a b : Nat)
    (h : loadOrigin image = 0x3000) :
    initialRunning = true ∧ initialReg R_PC = PC_START
    ∧ PC_START = 0x3000 ∧ initialReg R_PC = loadOrigin image
    ∧ loadImage (fun _ => 0) [0x3000, a, b] 0x3000 = a
    ∧ loadImage (fun _ => 0) [0x3000, a, b] 0x3001 = b := by
  refine ⟨rfl, by decide, rfl, ?_, ?_, ?_⟩
  · rw [h]
    decide
  · norm_num [loadImage, loadImage.loadWords, setReg]
  · norm_num [loadImage, loadImage.loadWords, setReg]

/-- Witness for C6 (amended): the image with origin 0x3000 and data
words 11 and 22. -/
theorem initial_pc_start_witness :
    initialReg R_PC = loadOrigin [0x3000, 11, 22] :=
  (initial_pc_start [0x3000, 11, 22] 11 22 rfl).2.2.2.1

end VM
